import Mathlib

/-!
Shallow embedding of `main.py` of the GNN repository (GraphSAINT-style
training/evaluation driver for GraphSAGE/GAT on Flickr/Reddit).

Real numbers are modelled as `ℚ`; tensors as lists; the model forward pass
and the optimizer update are opaque parameters (the claims never depend on
their internals, only on how `main.py` wires them together); fallible
Python operations (division by zero, `np.mean` of an empty axis) return
`Except`.
-/

namespace GNN

/-- The message-passing aggregation mode set by `model.set_aggr(...)`. -/
inductive Aggr where
  | add
  | mean
deriving DecidableEq, Repr

/-- The model state visible to `main.py`: parameters (opaque type `P`),
the current aggregation mode and the train/eval flag. -/
structure ModelState (P : Type) where
  params : P
  aggr : Aggr
  training : Bool

/-- Opaque forward pass `model(x, edge_index, edge_weight=None)`:
depends on parameters, aggregation mode, node features, edge index and the
optional edge weights; returns per-node rows of log-probabilities. -/
def Fwd (P : Type) : Type :=
  P → Aggr → List (List ℚ) → List (Nat × Nat) → Option (List ℚ) → List (List ℚ)

/-- Opaque `loss.backward(); optimizer.step()` pair: one parameter update,
a function of the current parameters and the scalar loss. -/
def OptStep (P : Type) : Type := P → ℚ → P

/-- A sampled subgraph batch as yielded by the loader (`data` in
`train_sample` / `eval_sample`). -/
structure Batch where
  x : List (List ℚ)
  edgeIndex : List (Nat × Nat)
  y : List Nat
  trainMask : List Bool
  valMask : List Bool
  testMask : List Bool
  nodeNorm : List ℚ
  edgeNorm : List ℚ
  edgeAttr : List ℚ

/-- `data.num_nodes`: the number of node-feature rows. -/
def Batch.numNodes (b : Batch) : Nat := b.x.length

/-- Boolean-mask indexing `t[mask]` on equal-length tensors. -/
def maskFilter {α : Type} : List α → List Bool → List α
  | a :: as', m :: ms => if m then a :: maskFilter as' ms else maskFilter as' ms
  | _, _ => []

/-- `mask.sum().item()` on a boolean tensor: the number of `true` entries. -/
def countTrue (l : List Bool) : Nat := l.countP (fun b => b)

/-- `F.nll_loss(out, y, reduction='none')`: per-node value `-out[i][y[i]]`. -/
def nllLossNone (out : List (List ℚ)) (y : List Nat) : List ℚ :=
  (out.zip y).map (fun oy => -(oy.1.getD oy.2 0))

/-- `t.mean().item()` for a 1-d tensor, as the rational `sum / length`. -/
def listMean (l : List ℚ) : ℚ := l.sum / l.length

/-- The loss computed for one batch inside `train_sample` (lines 28–34):
with `norm_loss == 1` the forward pass receives `edge_norm * edge_attr`
and the loss is `(F.nll_loss(out, y, 'none') * node_norm)[train_mask].sum()`;
otherwise the forward pass receives no edge weights and the loss is
`F.nll_loss(out, y, 'none')[train_mask].mean()`. -/
def batchLossSrc {P : Type} (normLoss : ℤ) (fwd : Fwd P) (m : ModelState P)
    (b : Batch) : ℚ :=
  if normLoss = 1 then
    let out := fwd m.params m.aggr b.x b.edgeIndex
      (some (List.zipWith (· * ·) b.edgeNorm b.edgeAttr))
    let loss := nllLossNone out b.y
    (maskFilter (List.zipWith (· * ·) loss b.nodeNorm) b.trainMask).sum
  else
    let out := fwd m.params m.aggr b.x b.edgeIndex none
    listMean (maskFilter (nllLossNone out b.y) b.trainMask)

/-- Accumulator of `train_sample`'s loop over the loader. -/
structure TrainFold (P : Type) where
  m : ModelState P
  steps : Nat
  totalLoss : ℚ
  totalExamples : Nat

/-- One loader iteration of `train_sample` (lines 25–38): compute the batch
loss, perform exactly one optimizer step, and accumulate
`loss.item() * data.num_nodes` and `data.num_nodes`. -/
def trainStep {P : Type} (normLoss : ℤ) (fwd : Fwd P) (optStep : OptStep P)
    (st : TrainFold P) (b : Batch) : TrainFold P :=
  let loss := batchLossSrc normLoss fwd st.m b
  { m := { st.m with params := optStep st.m.params loss }
    steps := st.steps + 1
    totalLoss := st.totalLoss + loss * (b.numNodes : ℚ)
    totalExamples := st.totalExamples + b.numNodes }

/-- `train_sample(norm_loss)` (lines 20–39): set training mode and `'add'`
aggregation, loop once over the loader, and return the final model state,
the number of optimizer steps taken, and `total_loss / total_examples`
(a `ZeroDivisionError` when `total_examples == 0`). -/
def train_sample {P : Type} (fwd : Fwd P) (optStep : OptStep P)
    (m0 : ModelState P) (normLoss : ℤ) (batches : List Batch) :
    ModelState P × Nat × Except String ℚ :=
  let m := { m0 with training := true, aggr := Aggr.add }
  let st := batches.foldl (trainStep normLoss fwd optStep)
    { m := m, steps := 0, totalLoss := 0, totalExamples := 0 }
  (st.m, st.steps,
    if st.totalExamples = 0 then Except.error "ZeroDivisionError"
    else Except.ok (st.totalLoss / (st.totalExamples : ℚ)))

/-- The full graph `data = dataset[0]` after loading, plus the derived
`edge_attr` (absent until line 131 assigns it). -/
structure Graph where
  x : List (List ℚ)
  edgeIndex : List (Nat × Nat)
  y : List Nat
  trainMask : List Bool
  valMask : List Bool
  testMask : List Bool
  edgeAttr : Option (List ℚ)

/-- `data.num_nodes` on the full graph. -/
def Graph.numNodes (g : Graph) : Nat := g.x.length

/-- `degree(col, num_nodes)`: entry `v` counts the occurrences of `v` in
`col`, i.e. the in-degree of node `v`. -/
def degreeList (col : List Nat) (numNodes : Nat) : List Nat :=
  (List.range numNodes).map (fun v => col.countP (fun c => c = v))

/-- Lines 130–131: `row, col = data.edge_index;
data.edge_attr = 1. / degree(col, data.num_nodes)[col]` — the only
mutation of the graph object between loading and training. -/
def setEdgeAttr (g : Graph) : Graph :=
  let col := g.edgeIndex.map Prod.snd
  let deg := degreeList col g.numNodes
  { g with edgeAttr := some (col.map (fun c => 1 / ((deg.getD c 0 : Nat) : ℚ))) }

/-- `out.argmax(dim=-1)` on one row: the index of the first maximal entry
(0 on an empty row). -/
def argmaxIdxAux : List ℚ → Nat → Nat → ℚ → Nat
  | [], _, bi, _ => bi
  | v :: t, i, bi, bv => if bv < v then argmaxIdxAux t (i + 1) i v
                         else argmaxIdxAux t (i + 1) bi bv

/-- `out.argmax(dim=-1)` on one row of logits. -/
def argmaxIdx : List ℚ → Nat
  | [] => 0
  | v :: t => argmaxIdxAux t 1 0 v

/-- `pred = out.argmax(dim=-1)`: per-node predicted class labels. -/
def predOf (out : List (List ℚ)) : List Nat := out.map argmaxIdx

/-- One class's F1 score as computed by `sklearn.metrics.f1_score`:
`2·tp / (2·tp + fp + fn)`, defined as 0 when the denominator is 0. -/
def f1Class (c : Nat) (ytrue ypred : List Nat) : ℚ :=
  let pairs := ytrue.zip ypred
  let tp := pairs.countP (fun p => p.1 = c ∧ p.2 = c)
  let fp := pairs.countP (fun p => ¬p.1 = c ∧ p.2 = c)
  let fn := pairs.countP (fun p => p.1 = c ∧ ¬p.2 = c)
  if 2 * tp + fp + fn = 0 then 0
  else (2 * tp : ℚ) / ((2 * tp + fp + fn : Nat) : ℚ)

/-- `f1_score(ytrue, ypred, average='macro')`: the unweighted mean of the
per-class F1 scores over the classes occurring in `ytrue` or `ypred`. -/
def f1Macro (ytrue ypred : List Nat) : ℚ :=
  let labels := (ytrue ++ ypred).dedup
  (labels.map (fun c => f1Class c ytrue ypred)).sum / labels.length

/-- `correct[mask].sum().item() / mask.sum().item()` (lines 66 and 92):
a `ZeroDivisionError` when the mask has no `true` entry. -/
def maskAcc (correct : List Bool) (mask : List Bool) : Except String ℚ :=
  if countTrue mask = 0 then Except.error "ZeroDivisionError"
  else Except.ok ((countTrue (maskFilter correct mask) : ℚ) / (countTrue mask : ℚ))

/-- `correct = pred.eq(data.y)`. -/
def correctOf (pred y : List Nat) : List Bool :=
  List.zipWith (fun p q => decide (p = q)) pred y

/-- The three masks iterated by `data('train_mask', 'val_mask', 'test_mask')`. -/
def Batch.masks (b : Batch) : List (List Bool) := [b.trainMask, b.valMask, b.testMask]

/-- The three masks of the full graph, in the same order. -/
def Graph.masks (g : Graph) : List (List Bool) := [g.trainMask, g.valMask, g.testMask]

/-- The accuracy loop of `eval_full`/`eval_sample` over the three masks,
stopping at the first `ZeroDivisionError`. -/
def accsOverMasks (correct : List Bool) :
    List (List Bool) → Except String (List ℚ)
  | [] => Except.ok []
  | mk :: rest => do
      let a ← maskAcc correct mk
      let as' ← accsOverMasks correct rest
      Except.ok (a :: as')

/-- The macro-F1 loop of `eval_full`/`eval_sample` over the three masks:
`f1_score(y[mask], pred[mask], average='macro')`. -/
def f1sOverMasks (y pred : List Nat) (masks : List (List Bool)) : List ℚ :=
  masks.map (fun mk => f1Macro (maskFilter y mk) (maskFilter pred mk))

/-- `eval_full()` (lines 54–70): set eval mode and `'mean'` aggregation,
one forward pass over the whole graph, then per-mask accuracy and
macro-F1. -/
def eval_full {P : Type} (fwd : Fwd P) (m0 : ModelState P) (g : Graph) :
    ModelState P × Except String (List ℚ × List ℚ) :=
  let m := { m0 with training := false, aggr := Aggr.mean }
  let out := fwd m.params m.aggr g.x g.edgeIndex none
  let pred := predOf out
  let correct := correctOf pred g.y
  (m, do
    let accs ← accsOverMasks correct g.masks
    Except.ok (accs, f1sOverMasks g.y pred g.masks))

/-- The forward pass of `eval_sample` on one batch (lines 82–85): with the
normalisation weights `edge_norm * edge_attr` when `norm_loss == 1`,
without edge weights otherwise. -/
def outOf {P : Type} (fwd : Fwd P) (m : ModelState P) (normLoss : ℤ)
    (b : Batch) : List (List ℚ) :=
  if normLoss = 1 then
    fwd m.params m.aggr b.x b.edgeIndex
      (some (List.zipWith (· * ·) b.edgeNorm b.edgeAttr))
  else fwd m.params m.aggr b.x b.edgeIndex none

/-- One loader iteration of `eval_sample` (lines 79–97): forward pass with
or without the normalisation weights, then per-mask accuracy and macro-F1
for this batch. -/
def batchEval {P : Type} (fwd : Fwd P) (m : ModelState P) (normLoss : ℤ)
    (b : Batch) : Except String (List ℚ × List ℚ) :=
  let pred := predOf (outOf fwd m normLoss b)
  let correct := correctOf pred b.y
  do
    let accs ← accsOverMasks correct b.masks
    Except.ok (accs, f1sOverMasks b.y pred b.masks)

/-- The loop of `eval_sample` over the loader, collecting the rows of
`accs_all` and `f1_scores_all`. -/
def evalBatches {P : Type} (fwd : Fwd P) (m : ModelState P) (normLoss : ℤ) :
    List Batch → Except String (List (List ℚ) × List (List ℚ))
  | [] => Except.ok ([], [])
  | b :: bs => do
      let r ← batchEval fwd m normLoss b
      let rest ← evalBatches fwd m normLoss bs
      Except.ok (r.1 :: rest.1, r.2 :: rest.2)

/-- `np.mean(rows[:, i])`: the unweighted mean of column `i`. -/
def colMean (rows : List (List ℚ)) (i : Nat) : ℚ :=
  (rows.map (fun r => r.getD i 0)).sum / rows.length

/-- `eval_sample(norm_loss)` (lines 73–106): set eval mode and `'add'`
aggregation, evaluate every batch, then average each mask's per-batch
accuracy and macro-F1 across batches (`np.mean` over an empty batch axis
is undefined and modelled as an error). -/
def eval_sample {P : Type} (fwd : Fwd P) (m0 : ModelState P) (normLoss : ℤ)
    (batches : List Batch) : ModelState P × Except String (List ℚ × List ℚ) :=
  let m := { m0 with training := false, aggr := Aggr.add }
  (m, do
    let rows ← evalBatches fwd m normLoss batches
    if rows.1.length = 0 then Except.error "empty mean"
    else Except.ok ((List.range 3).map (colMean rows.1),
                    (List.range 3).map (colMean rows.2)))

/-- `train_full()` (lines 42–51): set training mode and `'mean'`
aggregation, one forward pass over the whole graph, masked-mean NLL loss,
one optimizer step. -/
def train_full {P : Type} (fwd : Fwd P) (optStep : OptStep P)
    (m0 : ModelState P) (g : Graph) : ModelState P × ℚ :=
  let m := { m0 with training := true, aggr := Aggr.mean }
  let out := fwd m.params m.aggr g.x g.edgeIndex none
  let loss := listMean (nllLossNone (maskFilter out g.trainMask)
    (maskFilter g.y g.trainMask))
  ({ m with params := optStep m.params loss }, loss)

/-- What one epoch of the driver body yields: the scalar loss from
`train_sample`/`train_full` and the three-element `accs` and `f1_scores`
lists from `eval_sample`/`eval_full`. -/
structure EpochOutcome where
  loss : ℚ
  accs : List ℚ
  f1s : List ℚ

/-- The per-epoch summary state of the driver (lines 156–159). -/
structure DriverSummary where
  losses : List ℚ
  accsTrain : List ℚ
  accsTest : List ℚ
  f1sTrain : List ℚ
  f1sTest : List ℚ

/-- One iteration of the epoch loop (lines 160–177): run train and eval,
record the loss and append `accs[0]`, `f1_scores[0]`, `accs[2]`,
`f1_scores[2]`. -/
def epochStep (run : Nat → EpochOutcome) (s : DriverSummary) (epoch : Nat) :
    DriverSummary :=
  let r := run epoch
  { losses := s.losses ++ [r.loss]
    accsTrain := s.accsTrain ++ [r.accs.getD 0 0]
    accsTest := s.accsTest ++ [r.accs.getD 2 0]
    f1sTrain := s.f1sTrain ++ [r.f1s.getD 0 0]
    f1sTest := s.f1sTest ++ [r.f1s.getD 2 0] }

/-- The epoch loop `for epoch in range(1, args.epochs + 1)`: epochs are
logged with the 1-based indices `1 .. E`. -/
def runEpochs (E : Nat) (run : Nat → EpochOutcome) : DriverSummary :=
  ((List.range E).map (· + 1)).foldl (epochStep run)
    { losses := [], accsTrain := [], accsTest := [], f1sTrain := [], f1sTest := [] }

/-- The `.npz` archive written by `np.savez` (lines 190–191): four named
numeric arrays. -/
structure Archive where
  train_acc : List ℚ
  test_acc : List ℚ
  train_f1 : List ℚ
  test_f1 : List ℚ

/-- Lines 190–191: the archive saved at the end of a run. -/
def savedArchive (s : DriverSummary) : Archive :=
  { train_acc := s.accsTrain, test_acc := s.accsTest
    train_f1 := s.f1sTrain, test_f1 := s.f1sTest }

/-- `arr.max()` of a nonempty numpy array (0 on the empty array, where
numpy would raise instead; the driver only applies it after at least one
epoch has appended a value). -/
def npMax (l : List ℚ) : ℚ := (l.max?).getD 0

/-- `arr.argmax()`: the index of the first occurrence of the maximum. -/
def npArgmax (l : List ℚ) : Nat := l.findIdx (fun v => v = npMax l)

/-- Line 185–186: `Best acc: max, epoch: argmax, f1-macro: f1s[argmax]`
on the test summary arrays. -/
def bestAccLine (s : DriverSummary) : ℚ × Nat × ℚ :=
  (npMax s.accsTest, npArgmax s.accsTest, s.f1sTest.getD (npArgmax s.accsTest) 0)

/-- Line 187–188: `Best f1-macro: max, epoch: argmax, acc: accs[argmax]`
on the test summary arrays. -/
def bestF1Line (s : DriverSummary) : ℚ × Nat × ℚ :=
  (npMax s.f1sTest, npArgmax s.f1sTest, s.accsTest.getD (npArgmax s.f1sTest) 0)

/-- The CLI arguments relevant to startup selection. -/
structure Args where
  dataset : String
  sampler : String
  gcn_type : String

/-- The errors a startup stage can raise: the two descriptive `KeyError`s
of lines 126 and 143, or the non-descriptive `TypeError` Python raises
when the `None` returned by `dict.get` on an unknown GCN type is called. -/
inductive StartupError where
  | keyError (msg : String)
  | typeError (msg : String)
deriving DecidableEq, Repr

/-- The dataset chosen at lines 119–126. -/
inductive DatasetKind where
  | flickr
  | reddit
deriving DecidableEq, Repr

/-- The loader chosen at lines 133–143. -/
inductive SamplerKind where
  | randomWalk
  | randomNode
deriving DecidableEq, Repr

/-- The network class chosen at line 149. -/
inductive NetKind where
  | sage
  | gat
deriving DecidableEq, Repr

/-- Lines 119–126: dataset selection; unknown names raise
`KeyError('Dataset name error')`. -/
def selectDataset (name : String) : Except StartupError DatasetKind :=
  if name = "flickr" then Except.ok DatasetKind.flickr
  else if name = "reddit" then Except.ok DatasetKind.reddit
  else Except.error (StartupError.keyError "Dataset name error")

/-- Lines 133–143: sampler selection; unknown names raise
`KeyError('Sampler type error')`. -/
def selectSampler (name : String) : Except StartupError SamplerKind :=
  if name = "rw" then Except.ok SamplerKind.randomWalk
  else if name = "rn" then Except.ok SamplerKind.randomNode
  else Except.error (StartupError.keyError "Sampler type error")

/-- Line 149: `Net = {'sage': SAGENet, 'gat': GATNet}.get(args.gcn_type)` —
a plain dictionary lookup, `None` on unknown keys, no check. -/
def selectNet (name : String) : Option NetKind :=
  if name = "sage" then some NetKind.sage
  else if name = "gat" then some NetKind.gat
  else none

/-- Lines 151–153: `model = Net(...)`; when `Net` is `None` Python raises
a `TypeError` at the call, not a descriptive configuration error. -/
def constructModel (net : Option NetKind) : Except StartupError NetKind :=
  match net with
  | some k => Except.ok k
  | none => Except.error (StartupError.typeError "NoneType object is not callable")

/-- The startup sequence of `__main__` (lines 119–153) in source order:
dataset selection, then sampler selection, then model selection and
construction.  Any error aborts before the later stages (and before the
epoch loop) run. -/
def startup (a : Args) : Except StartupError (DatasetKind × SamplerKind × NetKind) :=
  do
    let d ← selectDataset a.dataset
    let s ← selectSampler a.sampler
    let n ← constructModel (selectNet a.gcn_type)
    Except.ok (d, s, n)

/-! Spec-side definitions, written from the claims' own words, to be
compared with the source-side functions above. -/

/-- Written from the claim (C1): the per-node negative log-likelihood
multiplied elementwise by the node-normalisation factors, restricted to
the train mask, and summed. -/
def specWeightedMaskedSum (nll w : List ℚ) (mask : List Bool) : ℚ :=
  ∑ i ∈ Finset.range mask.length,
    if mask.getD i false = true then nll.getD i 0 * w.getD i 0 else 0

/-- Written from the claim (C1): the plain mean of the per-node negative
log-likelihood over the train-masked nodes. -/
def specMaskedMean (nll : List ℚ) (mask : List Bool) : ℚ :=
  (∑ i ∈ Finset.range mask.length,
    if mask.getD i false = true then nll.getD i 0 else 0) /
  (∑ i ∈ Finset.range mask.length,
    if mask.getD i false = true then (1 : ℚ) else 0)

/-- Written from the claim (C3): the accuracy of predictions against
ground truth over the nodes of a mask — the fraction of masked nodes
whose predicted label equals the true label. -/
def specBatchAcc (pred y : List Nat) (mask : List Bool) : ℚ :=
  (∑ i ∈ Finset.range mask.length,
    if mask.getD i false = true ∧ pred.getD i 0 = y.getD i 0 then (1 : ℚ) else 0) /
  (∑ i ∈ Finset.range mask.length,
    if mask.getD i false = true then (1 : ℚ) else 0)

/-- Written from the claim (C3): the unweighted arithmetic mean of a
per-batch quantity across all batches. -/
def specMeanOverBatches (f : Batch → ℚ) (batches : List Batch) : ℚ :=
  (batches.map f).sum / batches.length

/-- Written from the claim (C8): the in-degree of node `v` — the number
of edges whose target is `v`. -/
def inDegree (g : Graph) (v : Nat) : Nat :=
  g.edgeIndex.countP (fun e => e.2 = v)

/-- The predictions computed inside `eval_full` (line 60). -/
def evalFullPred {P : Type} (fwd : Fwd P) (m0 : ModelState P) (g : Graph) :
    List Nat :=
  predOf (fwd m0.params Aggr.mean g.x g.edgeIndex none)

/-- The predictions computed inside `eval_sample` for one batch (line 86). -/
def evalSamplePred {P : Type} (fwd : Fwd P) (m0 : ModelState P) (nl : ℤ)
    (b : Batch) : List Nat :=
  predOf (outOf fwd { m0 with training := false, aggr := Aggr.add } nl b)

/-- The row of three per-mask accuracies `eval_sample` computes for one
batch when no mask is empty. -/
def accRow {P : Type} (fwd : Fwd P) (m : ModelState P) (nl : ℤ) (b : Batch) :
    List ℚ :=
  b.masks.map (fun mk =>
    (countTrue (maskFilter (correctOf (predOf (outOf fwd m nl b)) b.y) mk) : ℚ) /
      (countTrue mk : ℚ))

/-- The row of three per-mask accuracies `eval_full` computes when no mask
is empty. -/
def accRowFull {P : Type} (fwd : Fwd P) (m0 : ModelState P) (g : Graph) :
    List ℚ :=
  g.masks.map (fun mk =>
    (countTrue (maskFilter (correctOf (evalFullPred fwd m0 g) g.y) mk) : ℚ) /
      (countTrue mk : ℚ))

/-- The row of three per-mask macro-F1 scores `eval_full` computes. -/
def f1RowFull {P : Type} (fwd : Fwd P) (m0 : ModelState P) (g : Graph) :
    List ℚ :=
  f1sOverMasks g.y (evalFullPred fwd m0 g) g.masks

/-- Whether a fallible computation succeeded. -/
def isOkB {ε α : Type} : Except ε α → Bool
  | Except.ok _ => true
  | Except.error _ => false

/-- Whether a startup stage raised one of the two descriptive `KeyError`s. -/
def isKeyError {α : Type} : Except StartupError α → Bool
  | Except.error (StartupError.keyError _) => true
  | _ => false

/-- A concrete per-epoch outcome used to instantiate driver theorems. -/
def wRun : Nat → EpochOutcome :=
  fun _ => { loss := 0, accs := [3, 5, 7], f1s := [2, 4, 6] }

/-! Small concrete fixtures used to instantiate theorems with hypotheses. -/

/-- A concrete forward pass: every node gets the single-class row `[0]`. -/
def wFwd : Fwd Unit := fun _ _ x _ _ => x.map (fun _ => [0])

/-- A concrete optimizer step (identity on the unit parameter). -/
def wOpt : OptStep Unit := fun p _ => p

/-- A concrete initial model state. -/
def wModel : ModelState Unit := { params := (), aggr := Aggr.add, training := true }

/-- A concrete one-node batch, in all three masks. -/
def wBatch : Batch :=
  { x := [[1]], edgeIndex := [], y := [0], trainMask := [true], valMask := [true]
    testMask := [true], nodeNorm := [1], edgeNorm := [], edgeAttr := [] }

/-- A concrete one-node batch whose val mask is empty. -/
def wBatchNoVal : Batch :=
  { x := [[1]], edgeIndex := [], y := [0], trainMask := [true], valMask := [false]
    testMask := [true], nodeNorm := [1], edgeNorm := [], edgeAttr := [] }

/-- A concrete two-node, one-edge graph, every node in every mask. -/
def wGraph : Graph :=
  { x := [[1], [2]], edgeIndex := [(0, 1)], y := [0, 0], trainMask := [true, true]
    valMask := [true, true], testMask := [true, true], edgeAttr := none }

/-! Helper lemmas. -/

theorem maskFilter_nil_right {α : Type} (xs : List α) : maskFilter xs [] = [] := by
  cases xs <;> rfl

theorem maskFilter_sum (xs : List ℚ) (bs : List Bool) (h : xs.length = bs.length) :
    (maskFilter xs bs).sum =
      ∑ i ∈ Finset.range bs.length,
        if bs.getD i false = true then xs.getD i 0 else 0 := by
  induction bs generalizing xs with
  | nil => rw [maskFilter_nil_right]; simp
  | cons b bs ih =>
    cases xs with
    | nil => simp at h
    | cons x xs =>
      simp only [List.length_cons] at h
      have h' : xs.length = bs.length := by omega
      rw [List.length_cons, Finset.sum_range_succ']
      simp only [List.getD_cons_succ, List.getD_cons_zero]
      cases b with
      | false => simpa [maskFilter] using ih xs h'
      | true =>
        show (x :: maskFilter xs bs).sum = _
        rw [List.sum_cons, ih xs h']
        simp [add_comm]

theorem maskFilter_length {α : Type} (xs : List α) (bs : List Bool)
    (h : xs.length = bs.length) : (maskFilter xs bs).length = countTrue bs := by
  induction bs generalizing xs with
  | nil => rw [maskFilter_nil_right]; simp [countTrue]
  | cons b bs ih =>
    cases xs with
    | nil => simp at h
    | cons x xs =>
      simp only [List.length_cons] at h
      have h' : xs.length = bs.length := by omega
      cases b with
      | false => simp [maskFilter, ih xs h', countTrue, List.countP_cons]
      | true => simp [maskFilter, ih xs h', countTrue, List.countP_cons]

theorem countTrue_castQ (bs : List Bool) :
    ((countTrue bs : ℚ)) =
      ∑ i ∈ Finset.range bs.length,
        if bs.getD i false = true then (1 : ℚ) else 0 := by
  induction bs with
  | nil => simp [countTrue]
  | cons b bs ih =>
    rw [List.length_cons, Finset.sum_range_succ']
    simp only [List.getD_cons_succ, List.getD_cons_zero]
    have hc : countTrue (b :: bs) = countTrue bs + (if b = true then 1 else 0) := by
      simp [countTrue, List.countP_cons]
    rw [hc]
    cases b <;> push_cast <;> simp [ih]

theorem countTrue_maskFilter_castQ (cs bs : List Bool) (h : cs.length = bs.length) :
    ((countTrue (maskFilter cs bs) : ℚ)) =
      ∑ i ∈ Finset.range bs.length,
        if bs.getD i false = true ∧ cs.getD i false = true then (1 : ℚ) else 0 := by
  induction bs generalizing cs with
  | nil => rw [maskFilter_nil_right]; simp [countTrue]
  | cons b bs ih =>
    cases cs with
    | nil => simp at h
    | cons c cs =>
      simp only [List.length_cons] at h
      have h' : cs.length = bs.length := by omega
      rw [List.length_cons, Finset.sum_range_succ']
      simp only [List.getD_cons_succ, List.getD_cons_zero]
      cases b with
      | false => simpa [maskFilter] using ih cs h'
      | true =>
        show ((countTrue (c :: maskFilter cs bs) : ℚ)) = _
        have hc : ((countTrue (c :: maskFilter cs bs) : ℚ)) =
            ((countTrue (maskFilter cs bs) : ℚ)) + (if c = true then (1 : ℚ) else 0) := by
          have := List.countP_cons (fun b => b) c (maskFilter cs bs)
          simp only [countTrue, this]
          cases c <;> push_cast <;> simp
        rw [hc, ih cs h']
        cases c <;> simp [add_comm]

theorem zipWith_getD {α β γ : Type} (f : α → β → γ) (as : List α) (bs : List β)
    (i : Nat) (d : γ) (dA : α) (dB : β) (ha : i < as.length) (hb : i < bs.length) :
    (List.zipWith f as bs).getD i d = f (as.getD i dA) (bs.getD i dB) := by
  rw [List.getD_eq_getElem _ _ (by rw [List.length_zipWith]; omega),
      List.getD_eq_getElem _ _ ha, List.getD_eq_getElem _ _ hb]
  exact List.getElem_zipWith

theorem trainFold_steps {P : Type} (normLoss : ℤ) (fwd : Fwd P) (opt : OptStep P)
    (batches : List Batch) (st : TrainFold P) :
    (batches.foldl (trainStep normLoss fwd opt) st).steps = st.steps + batches.length := by
  induction batches generalizing st with
  | nil => simp
  | cons b bs ih =>
    rw [List.foldl_cons, ih]
    simp [trainStep]
    omega

theorem trainFold_aggr {P : Type} (normLoss : ℤ) (fwd : Fwd P) (opt : OptStep P)
    (batches : List Batch) (st : TrainFold P) :
    (batches.foldl (trainStep normLoss fwd opt) st).m.aggr = st.m.aggr := by
  induction batches generalizing st with
  | nil => rfl
  | cons b bs ih =>
    rw [List.foldl_cons, ih]
    rfl

theorem trainFold_totalExamples {P : Type} (normLoss : ℤ) (fwd : Fwd P)
    (opt : OptStep P) (batches : List Batch) (st : TrainFold P) :
    (batches.foldl (trainStep normLoss fwd opt) st).totalExamples =
      st.totalExamples + (batches.map Batch.numNodes).sum := by
  induction batches generalizing st with
  | nil => simp
  | cons b bs ih =>
    rw [List.foldl_cons, ih]
    simp [trainStep]
    omega

/-- C1: for every sampled batch in `train_sample`, when the
loss-normalisation flag equals 1 the training loss is the per-node
negative log-likelihood multiplied elementwise by the batch's `node_norm`
factors, restricted to the train mask, and summed; when the flag is not 1
the loss is the plain mean of the per-node negative log-likelihood over
the train-masked nodes; and model parameters are updated exactly once per
batch (one optimizer step per loader iteration). -/
theorem train_sample_loss_and_step_per_batch {P : Type} (fwd : Fwd P)
    (optStep : OptStep P) (m : ModelState P) (b : Batch) (n : Nat)
    (nl : ℤ) (hnl : nl ≠ 1) (m0 : ModelState P) (normLoss : ℤ)
    (batches : List Batch)
    (hy : b.y.length = n) (hw : b.nodeNorm.length = n)
    (hm : b.trainMask.length = n)
    (hout1 : (fwd m.params m.aggr b.x b.edgeIndex
      (some (List.zipWith (· * ·) b.edgeNorm b.edgeAttr))).length = n)
    (hout2 : (fwd m.params m.aggr b.x b.edgeIndex none).length = n) :
    batchLossSrc 1 fwd m b =
      specWeightedMaskedSum
        (nllLossNone (fwd m.params m.aggr b.x b.edgeIndex
          (some (List.zipWith (· * ·) b.edgeNorm b.edgeAttr))) b.y)
        b.nodeNorm b.trainMask
    ∧ batchLossSrc nl fwd m b =
        specMaskedMean
          (nllLossNone (fwd m.params m.aggr b.x b.edgeIndex none) b.y)
          b.trainMask
    ∧ (train_sample fwd optStep m0 normLoss batches).2.1 = batches.length := by
  refine ⟨?_, ?_, ?_⟩
  · set out := fwd m.params m.aggr b.x b.edgeIndex
      (some (List.zipWith (· * ·) b.edgeNorm b.edgeAttr)) with hout
    have hnll : (nllLossNone out b.y).length = n := by
      simp [nllLossNone, List.length_zip, hout1, hy]
    have hzw : (List.zipWith (· * ·) (nllLossNone out b.y) b.nodeNorm).length
        = b.trainMask.length := by
      rw [List.length_zipWith, hnll, hw, hm]
      omega
    unfold batchLossSrc
    rw [if_pos rfl, ← hout, maskFilter_sum _ _ hzw]
    unfold specWeightedMaskedSum
    apply Finset.sum_congr rfl
    intro i hi
    rw [Finset.mem_range] at hi
    by_cases hb : b.trainMask.getD i false = true
    · rw [if_pos hb, if_pos hb,
        zipWith_getD _ _ _ _ _ 0 0 (by omega) (by omega)]
    · rw [if_neg hb, if_neg hb]
  · have hnll : (nllLossNone (fwd m.params m.aggr b.x b.edgeIndex none) b.y).length
        = n := by
      simp [nllLossNone, List.length_zip, hout2, hy]
    have hlen : (nllLossNone (fwd m.params m.aggr b.x b.edgeIndex none) b.y).length
        = b.trainMask.length := by
      rw [hnll, hm]
    unfold batchLossSrc
    rw [if_neg hnl]
    show listMean (maskFilter
      (nllLossNone (fwd m.params m.aggr b.x b.edgeIndex none) b.y) b.trainMask) = _
    unfold listMean specMaskedMean
    rw [maskFilter_sum _ _ hlen, maskFilter_length _ _ hlen, countTrue_castQ]
  · show (train_sample fwd optStep m0 normLoss batches).2.1 = batches.length
    unfold train_sample
    simp only
    rw [trainFold_steps]
    simp

/-- Witness for C1 at a concrete one-node batch and a one-batch loader. -/
theorem train_sample_loss_and_step_per_batch_witness :
    batchLossSrc 1 wFwd wModel wBatch =
      specWeightedMaskedSum
        (nllLossNone (wFwd wModel.params wModel.aggr wBatch.x wBatch.edgeIndex
          (some (List.zipWith (· * ·) wBatch.edgeNorm wBatch.edgeAttr))) wBatch.y)
        wBatch.nodeNorm wBatch.trainMask
    ∧ batchLossSrc 0 wFwd wModel wBatch =
        specMaskedMean
          (nllLossNone (wFwd wModel.params wModel.aggr wBatch.x wBatch.edgeIndex none)
            wBatch.y)
          wBatch.trainMask
    ∧ (train_sample wFwd wOpt wModel 1 [wBatch]).2.1 = [wBatch].length := by
  exact train_sample_loss_and_step_per_batch wFwd wOpt wModel wBatch 1 0
    (by decide) wModel 1 [wBatch] (by decide) (by decide) (by decide)
    (by decide) (by decide)

/-- C2: every sampled-mode operation (`train_sample`, `eval_sample`) sets
the model's aggregation mode to sum-based (`'add'`) for its forward
passes, and every full-graph operation (`train_full`, `eval_full`) sets it
to mean-based (`'mean'`), so evaluation uses the same aggregation
semantics as the corresponding training mode. -/
theorem aggregation_mode_matches_sampling_mode {P : Type} (fwd : Fwd P)
    (opt : OptStep P) (m0 : ModelState P) (normLoss : ℤ)
    (batches : List Batch) (g : Graph) :
    (train_sample fwd opt m0 normLoss batches).1.aggr = Aggr.add
    ∧ (eval_sample fwd m0 normLoss batches).1.aggr = Aggr.add
    ∧ (train_full fwd opt m0 g).1.aggr = Aggr.mean
    ∧ (eval_full fwd m0 g).1.aggr = Aggr.mean := by
  refine ⟨?_, rfl, rfl, rfl⟩
  unfold train_sample
  simp only
  rw [trainFold_aggr]

theorem driverFold_lengths (run : Nat → EpochOutcome) (l : List Nat)
    (s : DriverSummary) :
    (l.foldl (epochStep run) s).losses.length = s.losses.length + l.length
    ∧ (l.foldl (epochStep run) s).accsTrain.length = s.accsTrain.length + l.length
    ∧ (l.foldl (epochStep run) s).accsTest.length = s.accsTest.length + l.length
    ∧ (l.foldl (epochStep run) s).f1sTrain.length = s.f1sTrain.length + l.length
    ∧ (l.foldl (epochStep run) s).f1sTest.length = s.f1sTest.length + l.length := by
  induction l generalizing s with
  | nil => simp
  | cons e l ih =>
    obtain ⟨h1, h2, h3, h4, h5⟩ := ih (epochStep run s e)
    rw [List.foldl_cons]
    have e1 : (epochStep run s e).losses.length = s.losses.length + 1 := by
      simp [epochStep]
    have e2 : (epochStep run s e).accsTrain.length = s.accsTrain.length + 1 := by
      simp [epochStep]
    have e3 : (epochStep run s e).accsTest.length = s.accsTest.length + 1 := by
      simp [epochStep]
    have e4 : (epochStep run s e).f1sTrain.length = s.f1sTrain.length + 1 := by
      simp [epochStep]
    have e5 : (epochStep run s e).f1sTest.length = s.f1sTest.length + 1 := by
      simp [epochStep]
    refine ⟨?_, ?_, ?_, ?_, ?_⟩
    · rw [h1, e1]; simp; omega
    · rw [h2, e2]; simp; omega
    · rw [h3, e3]; simp; omega
    · rw [h4, e4]; simp; omega
    · rw [h5, e5]; simp; omega

/-- C6: a run over `E` epochs produces exactly one scalar loss per epoch
and appends one train-accuracy, one test-accuracy, one train-F1 and one
test-F1 per epoch, and the saved compressed archive holds exactly four
named arrays, each of length `E`; in particular for `E = 2` each array has
length 2. -/
theorem run_summary_shapes (E : Nat) (run : Nat → EpochOutcome) :
    (runEpochs E run).losses.length = E
    ∧ (savedArchive (runEpochs E run)).train_acc.length = E
    ∧ (savedArchive (runEpochs E run)).test_acc.length = E
    ∧ (savedArchive (runEpochs E run)).train_f1.length = E
    ∧ (savedArchive (runEpochs E run)).test_f1.length = E
    ∧ (savedArchive (runEpochs 2 run)).train_acc.length = 2
    ∧ (savedArchive (runEpochs 2 run)).test_acc.length = 2
    ∧ (savedArchive (runEpochs 2 run)).train_f1.length = 2
    ∧ (savedArchive (runEpochs 2 run)).test_f1.length = 2 := by
  have key : ∀ n : Nat, (runEpochs n run).losses.length = n
      ∧ (runEpochs n run).accsTrain.length = n
      ∧ (runEpochs n run).accsTest.length = n
      ∧ (runEpochs n run).f1sTrain.length = n
      ∧ (runEpochs n run).f1sTest.length = n := by
    intro n
    obtain ⟨h1, h2, h3, h4, h5⟩ := driverFold_lengths run ((List.range n).map (· + 1))
      { losses := [], accsTrain := [], accsTest := [], f1sTrain := [], f1sTest := [] }
    unfold runEpochs
    simp only [List.length_map, List.length_range] at h1 h2 h3 h4 h5
    exact ⟨by simpa using h1, by simpa using h2, by simpa using h3,
      by simpa using h4, by simpa using h5⟩
  obtain ⟨a1, a2, a3, a4, a5⟩ := key E
  obtain ⟨b1, b2, b3, b4, b5⟩ := key 2
  exact ⟨a1, a2, a3, a4, a5, b2, b3, b4, b5⟩

theorem npMax_spec (l : List ℚ) (h : l ≠ []) :
    npMax l ∈ l ∧ ∀ b ∈ l, b ≤ npMax l := by
  cases hm : l.max? with
  | none => exact absurd (List.max?_eq_none_iff.mp hm) h
  | some a =>
    have ha : npMax l = a := by simp [npMax, hm]
    rw [ha]
    exact ⟨List.max?_mem (fun a b => max_choice a b) hm,
      fun b hb => (List.max?_le_iff (fun a b c => max_le_iff) hm).mp le_rfl b hb⟩

theorem npArgmax_spec (l : List ℚ) (h : l ≠ []) :
    npArgmax l < l.length ∧ l.getD (npArgmax l) 0 = npMax l
    ∧ ∀ j, j < npArgmax l → l.getD j 0 ≠ npMax l := by
  have hmem : npMax l ∈ l := (npMax_spec l h).1
  have hex : ∃ x ∈ l, (fun v => decide (v = npMax l)) x = true :=
    ⟨npMax l, hmem, by simp⟩
  have hlt : npArgmax l < l.length := List.findIdx_lt_length_of_exists hex
  refine ⟨hlt, ?_, ?_⟩
  · have hp := @List.findIdx_getElem _ (fun v => decide (v = npMax l)) l hlt
    rw [List.getD_eq_getElem _ _ hlt]
    simpa using hp
  · intro j hj
    have hj' : j < l.length := lt_trans hj hlt
    have hp := List.not_of_lt_findIdx (p := fun v => decide (v = npMax l)) hj
    rw [List.getD_eq_getElem _ _ hj']
    simpa using hp

/-- C4 counterexample: in a one-epoch run the maximum test accuracy occurs
at logged epoch 1 (the logged epoch indices run from 1 to the epoch
count), but the epoch index reported by the final summary lines is the
0-based `argmax`, here 0 — not 1. -/
theorem best_epoch_one_based_cex :
    (runEpochs 1 wRun).accsTest = [7]
    ∧ (bestAccLine (runEpochs 1 wRun)).2.1 = 0
    ∧ (bestAccLine (runEpochs 1 wRun)).2.1 ≠ 1
    ∧ (bestF1Line (runEpochs 1 wRun)).2.1 = 0
    ∧ (bestF1Line (runEpochs 1 wRun)).2.1 ≠ 1 := by
  refine ⟨?_, ?_, ?_, ?_, ?_⟩ <;> decide

/-- C4 amended: after the configured number of epochs the driver reports
the maximum test accuracy over all epochs together with the 0-based
position in the per-epoch summary arrays at which it first occurs (one
less than the 1-based logged epoch index) and the test macro-F1 of that
same position, and symmetrically the maximum test macro-F1 with its
0-based first-occurrence position and that position's test accuracy. -/
theorem best_lines_report_argmax (E : Nat) (run : Nat → EpochOutcome)
    (s : DriverSummary) (hE : 0 < E) (hs : s = runEpochs E run) :
    (bestAccLine s).1 = npMax s.accsTest
    ∧ (bestAccLine s).2.1 < E
    ∧ s.accsTest.getD (bestAccLine s).2.1 0 = npMax s.accsTest
    ∧ (∀ j, j < (bestAccLine s).2.1 → s.accsTest.getD j 0 ≠ npMax s.accsTest)
    ∧ (bestAccLine s).2.2 = s.f1sTest.getD (bestAccLine s).2.1 0
    ∧ (bestF1Line s).1 = npMax s.f1sTest
    ∧ (bestF1Line s).2.1 < E
    ∧ s.f1sTest.getD (bestF1Line s).2.1 0 = npMax s.f1sTest
    ∧ (∀ j, j < (bestF1Line s).2.1 → s.f1sTest.getD j 0 ≠ npMax s.f1sTest)
    ∧ (bestF1Line s).2.2 = s.accsTest.getD (bestF1Line s).2.1 0 := by
  have hlens := driverFold_lengths run ((List.range E).map (· + 1))
    { losses := [], accsTrain := [], accsTest := [], f1sTrain := [], f1sTest := [] }
  have hlenA : s.accsTest.length = E := by
    rw [hs]
    unfold runEpochs
    simpa using hlens.2.2.1
  have hlenF : s.f1sTest.length = E := by
    rw [hs]
    unfold runEpochs
    simpa using hlens.2.2.2.2
  have hneA : s.accsTest ≠ [] := by
    intro hnil
    rw [hnil] at hlenA
    simp at hlenA
    omega
  have hneF : s.f1sTest ≠ [] := by
    intro hnil
    rw [hnil] at hlenF
    simp at hlenF
    omega
  obtain ⟨ha1, ha2, ha3⟩ := npArgmax_spec s.accsTest hneA
  obtain ⟨hf1, hf2, hf3⟩ := npArgmax_spec s.f1sTest hneF
  exact ⟨rfl, by rw [← hlenA]; exact ha1, ha2, ha3, rfl,
    rfl, by rw [← hlenF]; exact hf1, hf2, hf3, rfl⟩

/-- Witness for the amended C4 at a concrete one-epoch run. -/
theorem best_lines_report_argmax_witness :
    (bestAccLine (runEpochs 1 wRun)).1 = npMax (runEpochs 1 wRun).accsTest
    ∧ (bestAccLine (runEpochs 1 wRun)).2.1 < 1
    ∧ (bestAccLine (runEpochs 1 wRun)).2.2 =
        (runEpochs 1 wRun).f1sTest.getD (bestAccLine (runEpochs 1 wRun)).2.1 0 := by
  obtain ⟨h1, h2, _, _, h5, _⟩ :=
    best_lines_report_argmax 1 wRun (runEpochs 1 wRun) (by decide) rfl
  exact ⟨h1, h2, h5⟩

/-- C5: an unrecognized dataset name raises the descriptive
`KeyError('Dataset name error')` and an unrecognized sampler name (with a
recognized dataset) raises `KeyError('Sampler type error')`; both abort
startup before model construction, training, or evaluation (the error is
the startup result, so no later stage runs); with recognized names these
two checks raise no `KeyError`. -/
theorem startup_config_checks
    (a1 : Args) (h1 : a1.dataset ≠ "flickr" ∧ a1.dataset ≠ "reddit")
    (a2 : Args) (h2d : a2.dataset = "flickr" ∨ a2.dataset = "reddit")
    (h2s : a2.sampler ≠ "rw" ∧ a2.sampler ≠ "rn")
    (a3 : Args) (h3d : a3.dataset = "flickr" ∨ a3.dataset = "reddit")
    (h3s : a3.sampler = "rw" ∨ a3.sampler = "rn") :
    startup a1 = Except.error (StartupError.keyError "Dataset name error")
    ∧ startup a2 = Except.error (StartupError.keyError "Sampler type error")
    ∧ isKeyError (startup a3) = false := by
  refine ⟨?_, ?_, ?_⟩
  · obtain ⟨h1a, h1b⟩ := h1
    simp [startup, selectDataset, h1a, h1b, Bind.bind, Except.bind]
  · obtain ⟨h2a, h2b⟩ := h2s
    rcases h2d with hd | hd <;>
      simp [startup, selectDataset, selectSampler, hd, h2a, h2b, Bind.bind,
        Except.bind]
  · rcases h3d with hd | hd <;> rcases h3s with hs | hs <;>
      cases hnet : selectNet a3.gcn_type <;>
      simp [startup, selectDataset, selectSampler, constructModel, hd, hs, hnet,
        isKeyError, Bind.bind, Except.bind]

/-- Witness for C5 at three concrete argument vectors. -/
theorem startup_config_checks_witness :
    startup { dataset := "cora", sampler := "rw", gcn_type := "sage" }
      = Except.error (StartupError.keyError "Dataset name error")
    ∧ startup { dataset := "flickr", sampler := "ns", gcn_type := "sage" }
      = Except.error (StartupError.keyError "Sampler type error")
    ∧ isKeyError (startup { dataset := "flickr", sampler := "rn", gcn_type := "sage" })
      = false := by
  exact startup_config_checks
    { dataset := "cora", sampler := "rw", gcn_type := "sage" } (by decide)
    { dataset := "flickr", sampler := "ns", gcn_type := "sage" } (Or.inl rfl) (by decide)
    { dataset := "flickr", sampler := "rn", gcn_type := "sage" } (Or.inl rfl) (Or.inr rfl)

/-- C10: an unrecognized GCN-type flag is not checked at startup: the
dictionary lookup yields `None` and the failure is the non-descriptive
`TypeError` raised when `None` is called to construct the model — not one
of the two descriptive `KeyError` checks. -/
theorem unknown_gcn_type_not_checked (a : Args)
    (hd : a.dataset = "flickr" ∨ a.dataset = "reddit")
    (hs : a.sampler = "rw" ∨ a.sampler = "rn")
    (hg : a.gcn_type ≠ "sage" ∧ a.gcn_type ≠ "gat") :
    selectNet a.gcn_type = none
    ∧ startup a = Except.error (StartupError.typeError
        "NoneType object is not callable")
    ∧ isKeyError (startup a) = false := by
  obtain ⟨hg1, hg2⟩ := hg
  have hnet : selectNet a.gcn_type = none := by
    simp [selectNet, hg1, hg2]
  refine ⟨hnet, ?_, ?_⟩ <;>
    rcases hd with hd | hd <;> rcases hs with hs | hs <;>
    simp [startup, selectDataset, selectSampler, constructModel, hd, hs, hnet,
      isKeyError, Bind.bind, Except.bind]

/-- Witness for C10 at a concrete argument vector. -/
theorem unknown_gcn_type_not_checked_witness :
    selectNet "gcn" = none
    ∧ startup { dataset := "flickr", sampler := "rn", gcn_type := "gcn" }
        = Except.error (StartupError.typeError "NoneType object is not callable")
    ∧ isKeyError (startup { dataset := "flickr", sampler := "rn", gcn_type := "gcn" })
        = false := by
  exact unknown_gcn_type_not_checked
    { dataset := "flickr", sampler := "rn", gcn_type := "gcn" }
    (Or.inl rfl) (Or.inr rfl) (by decide)

/-- C8: after loading, the only mutation applied to the graph before
training is the derived edge-attribute computation: every edge gets
`edge_attr` equal to the reciprocal of the in-degree of its target node;
node features, the edge list, labels and the three masks are unchanged. -/
theorem setEdgeAttr_frame (g : Graph)
    (hcol : ∀ e ∈ g.edgeIndex, e.2 < g.numNodes) :
    (setEdgeAttr g).x = g.x
    ∧ (setEdgeAttr g).edgeIndex = g.edgeIndex
    ∧ (setEdgeAttr g).y = g.y
    ∧ (setEdgeAttr g).trainMask = g.trainMask
    ∧ (setEdgeAttr g).valMask = g.valMask
    ∧ (setEdgeAttr g).testMask = g.testMask
    ∧ (setEdgeAttr g).edgeAttr =
        some (g.edgeIndex.map (fun e => 1 / ((inDegree g e.2 : Nat) : ℚ))) := by
  refine ⟨rfl, rfl, rfl, rfl, rfl, rfl, ?_⟩
  unfold setEdgeAttr
  simp only [Option.some_inj]
  rw [List.map_map]
  apply List.map_congr_left
  intro e he
  have hlt : e.2 < g.numNodes := hcol e he
  have hdeg : (degreeList (g.edgeIndex.map Prod.snd) g.numNodes).getD e.2 0
      = inDegree g e.2 := by
    unfold degreeList
    rw [List.getD_eq_getElem _ _ (by simpa using hlt), List.getElem_map,
      List.getElem_range]
    unfold inDegree
    rw [List.countP_map]
    rfl
  show 1 / (((degreeList (g.edgeIndex.map Prod.snd) g.numNodes).getD e.2 0 : Nat) : ℚ)
      = 1 / ((inDegree g e.2 : Nat) : ℚ)
  rw [hdeg]

/-- Witness for C8 at a concrete two-node, one-edge graph. -/
theorem setEdgeAttr_frame_witness :
    (setEdgeAttr wGraph).x = wGraph.x
    ∧ (setEdgeAttr wGraph).edgeIndex = wGraph.edgeIndex
    ∧ (setEdgeAttr wGraph).y = wGraph.y
    ∧ (setEdgeAttr wGraph).trainMask = wGraph.trainMask
    ∧ (setEdgeAttr wGraph).valMask = wGraph.valMask
    ∧ (setEdgeAttr wGraph).testMask = wGraph.testMask
    ∧ (setEdgeAttr wGraph).edgeAttr =
        some (wGraph.edgeIndex.map (fun e => 1 / ((inDegree wGraph e.2 : Nat) : ℚ))) := by
  exact setEdgeAttr_frame wGraph (by decide)

theorem accsOverMasks_ok (correct : List Bool) (masks : List (List Bool))
    (h : ∀ mk ∈ masks, countTrue mk ≠ 0) :
    accsOverMasks correct masks = Except.ok (masks.map (fun mk =>
      (countTrue (maskFilter correct mk) : ℚ) / (countTrue mk : ℚ))) := by
  induction masks with
  | nil => rfl
  | cons mk rest ih =>
    have h0 : countTrue mk ≠ 0 := h mk (List.mem_cons_self mk rest)
    have hrest := ih (fun m hm => h m (List.mem_cons_of_mem mk hm))
    simp [accsOverMasks, maskAcc, if_neg h0, hrest, Bind.bind, Except.bind]

theorem accsOverMasks_err (correct : List Bool) (masks : List (List Bool))
    (h : ∃ mk ∈ masks, countTrue mk = 0) :
    isOkB (accsOverMasks correct masks) = false := by
  induction masks with
  | nil => obtain ⟨mk, hmk, _⟩ := h; simp at hmk
  | cons mk rest ih =>
    by_cases h0 : countTrue mk = 0
    · simp [accsOverMasks, maskAcc, if_pos h0, Bind.bind, Except.bind, isOkB]
    · obtain ⟨mk', hmk', hz⟩ := h
      rcases List.mem_cons.mp hmk' with heq | hmem
      · exact absurd (heq ▸ hz) h0
      · have hrest := ih ⟨mk', hmem, hz⟩
        cases hr : accsOverMasks correct rest with
        | ok as' => rw [hr] at hrest; simp [isOkB] at hrest
        | error e =>
          simp [accsOverMasks, maskAcc, if_neg h0, hr, Bind.bind, Except.bind, isOkB]

theorem batchEval_ok {P : Type} (fwd : Fwd P) (m : ModelState P) (nl : ℤ)
    (b : Batch) (h1 : countTrue b.trainMask ≠ 0) (h2 : countTrue b.valMask ≠ 0)
    (h3 : countTrue b.testMask ≠ 0) :
    batchEval fwd m nl b = Except.ok (accRow fwd m nl b,
      f1sOverMasks b.y (predOf (outOf fwd m nl b)) b.masks) := by
  have hmk : ∀ mk ∈ b.masks, countTrue mk ≠ 0 := by
    intro mk hmk
    simp [Batch.masks] at hmk
    rcases hmk with h | h | h <;> rw [h] <;> assumption
  have hacc := accsOverMasks_ok
    (correctOf (predOf (outOf fwd m nl b)) b.y) b.masks hmk
  simp [batchEval, hacc, Bind.bind, Except.bind, accRow]

theorem batchEval_err {P : Type} (fwd : Fwd P) (m : ModelState P) (nl : ℤ)
    (b : Batch)
    (h : countTrue b.trainMask = 0 ∨ countTrue b.valMask = 0 ∨
      countTrue b.testMask = 0) :
    isOkB (batchEval fwd m nl b) = false := by
  have hex : ∃ mk ∈ b.masks, countTrue mk = 0 := by
    rcases h with h | h | h
    · exact ⟨b.trainMask, by simp [Batch.masks], h⟩
    · exact ⟨b.valMask, by simp [Batch.masks], h⟩
    · exact ⟨b.testMask, by simp [Batch.masks], h⟩
  have herr := accsOverMasks_err
    (correctOf (predOf (outOf fwd m nl b)) b.y) b.masks hex
  cases ha : accsOverMasks (correctOf (predOf (outOf fwd m nl b)) b.y) b.masks with
  | ok as' => rw [ha] at herr; simp [isOkB] at herr
  | error e => simp [batchEval, ha, Bind.bind, Except.bind, isOkB]

theorem evalBatches_ok {P : Type} (fwd : Fwd P) (m : ModelState P) (nl : ℤ)
    (batches : List Batch) (A F : Batch → List ℚ)
    (h : ∀ b ∈ batches, batchEval fwd m nl b = Except.ok (A b, F b)) :
    evalBatches fwd m nl batches = Except.ok (batches.map A, batches.map F) := by
  induction batches with
  | nil => rfl
  | cons b bs ih =>
    have hb := h b (List.mem_cons_self b bs)
    have hbs := ih (fun b' hb' => h b' (List.mem_cons_of_mem b hb'))
    simp [evalBatches, hb, hbs, Bind.bind, Except.bind]

theorem evalBatches_err {P : Type} (fwd : Fwd P) (m : ModelState P) (nl : ℤ)
    (batches : List Batch)
    (h : ∃ b ∈ batches, isOkB (batchEval fwd m nl b) = false) :
    isOkB (evalBatches fwd m nl batches) = false := by
  induction batches with
  | nil => obtain ⟨b, hb, _⟩ := h; simp at hb
  | cons b bs ih =>
    cases hbe : batchEval fwd m nl b with
    | error e => simp [evalBatches, hbe, Bind.bind, Except.bind, isOkB]
    | ok r =>
      obtain ⟨b', hb', hz⟩ := h
      rcases List.mem_cons.mp hb' with heq | hmem
      · rw [heq, hbe] at hz; simp [isOkB] at hz
      · have hbs := ih ⟨b', hmem, hz⟩
        cases hr : evalBatches fwd m nl bs with
        | ok rs => rw [hr] at hbs; simp [isOkB] at hbs
        | error e =>
          simp [evalBatches, hbe, hr, Bind.bind, Except.bind, isOkB]

/-- C9: `train_sample` and `eval_sample` are only well-defined under
unchecked preconditions: `train_sample` divides by the accumulated node
count and fails with a division by zero when the loader yields no batches;
`eval_sample` divides each batch's correct-count by `mask.sum()` and fails
whenever some sampled batch misses one of the three masks entirely (and
its cross-batch averaging is undefined with no batches, also modelled as a
failure); when every epoch yields at least one batch and every batch
contains at least one node of each mask, no error branch is reachable. -/
theorem sample_division_preconditions {P : Type} (fwd : Fwd P)
    (opt : OptStep P) (m0 : ModelState P) (nl : ℤ)
    (batches : List Batch) (b0 : Batch) (hb0 : b0 ∈ batches)
    (hz : countTrue b0.trainMask = 0 ∨ countTrue b0.valMask = 0 ∨
      countTrue b0.testMask = 0)
    (batches' : List Batch) (hne : batches' ≠ [])
    (hok : ∀ b ∈ batches', countTrue b.trainMask ≠ 0 ∧
      countTrue b.valMask ≠ 0 ∧ countTrue b.testMask ≠ 0)
    (hwfl : ∀ b ∈ batches', b.trainMask.length = b.numNodes) :
    isOkB (train_sample fwd opt m0 nl []).2.2 = false
    ∧ isOkB (eval_sample fwd m0 nl []).2 = false
    ∧ isOkB (eval_sample fwd m0 nl batches).2 = false
    ∧ isOkB (train_sample fwd opt m0 nl batches').2.2 = true
    ∧ isOkB (eval_sample fwd m0 nl batches').2 = true := by
  refine ⟨rfl, rfl, ?_, ?_, ?_⟩
  · have herr := evalBatches_err fwd
      { m0 with training := false, aggr := Aggr.add } nl batches
      ⟨b0, hb0, batchEval_err _ _ _ _ hz⟩
    cases hr : evalBatches fwd { m0 with training := false, aggr := Aggr.add }
        nl batches with
    | ok r => rw [hr] at herr; simp [isOkB] at herr
    | error e => simp [eval_sample, hr, Bind.bind, Except.bind, isOkB]
  · cases batches' with
    | nil => exact absurd rfl hne
    | cons b rest =>
      have h1 : countTrue b.trainMask ≠ 0 :=
        (hok b (List.mem_cons_self b rest)).1
      have h2 : countTrue b.trainMask ≤ b.trainMask.length :=
        List.countP_le_length _
      have h3 : b.numNodes ≠ 0 := by
        rw [← hwfl b (List.mem_cons_self b rest)]
        omega
      have hsum : ((b :: rest).map Batch.numNodes).sum ≠ 0 := by
        simp only [List.map_cons, List.sum_cons]
        omega
      show isOkB (train_sample fwd opt m0 nl (b :: rest)).2.2 = true
      unfold train_sample
      simp only
      rw [trainFold_totalExamples]
      simp [isOkB, hsum, h3]
  · have hob : ∀ b ∈ batches', batchEval fwd
        { m0 with training := false, aggr := Aggr.add } nl b =
        Except.ok (accRow fwd { m0 with training := false, aggr := Aggr.add } nl b,
          f1sOverMasks b.y
            (predOf (outOf fwd { m0 with training := false, aggr := Aggr.add } nl b))
            b.masks) := by
      intro b hb
      exact batchEval_ok _ _ _ _ (hok b hb).1 (hok b hb).2.1 (hok b hb).2.2
    have hrows := evalBatches_ok fwd
      { m0 with training := false, aggr := Aggr.add } nl batches' _ _ hob
    have hlen : (batches'.map (accRow fwd
        { m0 with training := false, aggr := Aggr.add } nl)).length ≠ 0 := by
      rw [List.length_map]
      intro h
      exact hne (List.length_eq_zero.mp h)
    simp [eval_sample, hrows, Bind.bind, Except.bind, isOkB, if_neg hlen]

/-- Witness for C9 at concrete loaders: an empty loader, a loader with a
batch missing the val mask, and a well-covered one-batch loader. -/
theorem sample_division_preconditions_witness :
    isOkB (train_sample wFwd wOpt wModel 0 []).2.2 = false
    ∧ isOkB (eval_sample wFwd wModel 0 []).2 = false
    ∧ isOkB (eval_sample wFwd wModel 0 [wBatchNoVal]).2 = false
    ∧ isOkB (train_sample wFwd wOpt wModel 0 [wBatch]).2.2 = true
    ∧ isOkB (eval_sample wFwd wModel 0 [wBatch]).2 = true := by
  exact sample_division_preconditions wFwd wOpt wModel 0 [wBatchNoVal] wBatchNoVal
    (by simp) (by decide) [wBatch] (by simp) (by decide) (by decide)

theorem srcAcc_eq_specBatchAcc (pred y : List Nat) (mask : List Bool)
    (hp : pred.length = y.length) (hm : mask.length = y.length) :
    ((countTrue (maskFilter (correctOf pred y) mask) : ℚ)) / ((countTrue mask : ℚ))
      = specBatchAcc pred y mask := by
  have hc : (correctOf pred y).length = mask.length := by
    simp only [correctOf, List.length_zipWith]
    omega
  unfold specBatchAcc
  rw [countTrue_maskFilter_castQ _ _ hc, countTrue_castQ]
  congr 1
  apply Finset.sum_congr rfl
  intro i hi
  rw [Finset.mem_range] at hi
  have h1 : i < pred.length := by omega
  have h2 : i < y.length := by omega
  have hcd : (correctOf pred y).getD i false
      = decide (pred.getD i 0 = y.getD i 0) := by
    unfold correctOf
    exact zipWith_getD _ _ _ _ _ 0 0 h1 h2
  rw [hcd]
  by_cases hmk : mask.getD i false = true <;>
    by_cases heq : pred.getD i 0 = y.getD i 0 <;>
    simp [hmk, heq]

theorem colMean_map (A : Batch → List ℚ) (batches : List Batch) (k : Nat) :
    colMean (batches.map A) k
      = (batches.map (fun b => (A b).getD k 0)).sum / batches.length := by
  unfold colMean
  rw [List.map_map, List.length_map]
  rfl

/-- C3: for every sequence of sampled batches, `eval_sample` computes for
each batch the accuracy and the macro-F1 separately for each of the three
masks (train, val, test), and returns for each mask the unweighted
arithmetic mean of the per-batch accuracies and of the per-batch macro-F1
scores across all batches. -/
theorem eval_sample_returns_batch_means {P : Type} (fwd : Fwd P)
    (m0 : ModelState P) (nl : ℤ) (batches : List Batch) (hne : batches ≠ [])
    (hwf : ∀ b ∈ batches,
      b.trainMask.length = b.y.length ∧ b.valMask.length = b.y.length
      ∧ b.testMask.length = b.y.length
      ∧ (outOf fwd { m0 with training := false, aggr := Aggr.add } nl b).length
          = b.y.length
      ∧ countTrue b.trainMask ≠ 0 ∧ countTrue b.valMask ≠ 0
      ∧ countTrue b.testMask ≠ 0) :
    (eval_sample fwd m0 nl batches).2 = Except.ok
      ([specMeanOverBatches
          (fun b => specBatchAcc (evalSamplePred fwd m0 nl b) b.y b.trainMask)
          batches,
        specMeanOverBatches
          (fun b => specBatchAcc (evalSamplePred fwd m0 nl b) b.y b.valMask)
          batches,
        specMeanOverBatches
          (fun b => specBatchAcc (evalSamplePred fwd m0 nl b) b.y b.testMask)
          batches],
       [specMeanOverBatches (fun b => f1Macro (maskFilter b.y b.trainMask)
          (maskFilter (evalSamplePred fwd m0 nl b) b.trainMask)) batches,
        specMeanOverBatches (fun b => f1Macro (maskFilter b.y b.valMask)
          (maskFilter (evalSamplePred fwd m0 nl b) b.valMask)) batches,
        specMeanOverBatches (fun b => f1Macro (maskFilter b.y b.testMask)
          (maskFilter (evalSamplePred fwd m0 nl b) b.testMask)) batches]) := by
  have hob : ∀ b ∈ batches,
      batchEval fwd { m0 with training := false, aggr := Aggr.add } nl b =
      Except.ok
        (accRow fwd { m0 with training := false, aggr := Aggr.add } nl b,
         f1sOverMasks b.y
           (predOf (outOf fwd { m0 with training := false, aggr := Aggr.add } nl b))
           b.masks) := by
    intro b hb
    exact batchEval_ok _ _ _ _ (hwf b hb).2.2.2.2.1 (hwf b hb).2.2.2.2.2.1
      (hwf b hb).2.2.2.2.2.2
  have hrows := evalBatches_ok fwd
    { m0 with training := false, aggr := Aggr.add } nl batches _ _ hob
  have hlen : ¬((batches.map
      (accRow fwd { m0 with training := false, aggr := Aggr.add } nl)).length = 0) := by
    rw [List.length_map]
    intro h
    exact hne (List.length_eq_zero.mp h)
  have hpredlen : ∀ b ∈ batches,
      (predOf (outOf fwd { m0 with training := false, aggr := Aggr.add } nl b)).length
        = b.y.length := by
    intro b hb
    rw [predOf, List.length_map]
    exact (hwf b hb).2.2.2.1
  have e0 : colMean (batches.map
      (accRow fwd { m0 with training := false, aggr := Aggr.add } nl)) 0
      = specMeanOverBatches
          (fun b => specBatchAcc (evalSamplePred fwd m0 nl b) b.y b.trainMask)
          batches := by
    rw [colMean_map]
    unfold specMeanOverBatches
    congr 1
    refine congrArg List.sum ?_
    apply List.map_congr_left
    intro b hb
    exact srcAcc_eq_specBatchAcc _ _ _ (hpredlen b hb) (hwf b hb).1
  have e1 : colMean (batches.map
      (accRow fwd { m0 with training := false, aggr := Aggr.add } nl)) 1
      = specMeanOverBatches
          (fun b => specBatchAcc (evalSamplePred fwd m0 nl b) b.y b.valMask)
          batches := by
    rw [colMean_map]
    unfold specMeanOverBatches
    congr 1
    refine congrArg List.sum ?_
    apply List.map_congr_left
    intro b hb
    exact srcAcc_eq_specBatchAcc _ _ _ (hpredlen b hb) (hwf b hb).2.1
  have e2 : colMean (batches.map
      (accRow fwd { m0 with training := false, aggr := Aggr.add } nl)) 2
      = specMeanOverBatches
          (fun b => specBatchAcc (evalSamplePred fwd m0 nl b) b.y b.testMask)
          batches := by
    rw [colMean_map]
    unfold specMeanOverBatches
    congr 1
    refine congrArg List.sum ?_
    apply List.map_congr_left
    intro b hb
    exact srcAcc_eq_specBatchAcc _ _ _ (hpredlen b hb) (hwf b hb).2.2.1
  have f0 : colMean (batches.map (fun b => f1sOverMasks b.y
      (predOf (outOf fwd { m0 with training := false, aggr := Aggr.add } nl b))
      b.masks)) 0
      = specMeanOverBatches (fun b => f1Macro (maskFilter b.y b.trainMask)
          (maskFilter (evalSamplePred fwd m0 nl b) b.trainMask)) batches := by
    rw [colMean_map]
    rfl
  have f1 : colMean (batches.map (fun b => f1sOverMasks b.y
      (predOf (outOf fwd { m0 with training := false, aggr := Aggr.add } nl b))
      b.masks)) 1
      = specMeanOverBatches (fun b => f1Macro (maskFilter b.y b.valMask)
          (maskFilter (evalSamplePred fwd m0 nl b) b.valMask)) batches := by
    rw [colMean_map]
    rfl
  have f2 : colMean (batches.map (fun b => f1sOverMasks b.y
      (predOf (outOf fwd { m0 with training := false, aggr := Aggr.add } nl b))
      b.masks)) 2
      = specMeanOverBatches (fun b => f1Macro (maskFilter b.y b.testMask)
          (maskFilter (evalSamplePred fwd m0 nl b) b.testMask)) batches := by
    rw [colMean_map]
    rfl
  show (eval_sample fwd m0 nl batches).2 = _
  unfold eval_sample
  simp only
  rw [hrows]
  simp only [Bind.bind, Except.bind, if_neg hlen]
  have hr3 : List.range 3 = [0, 1, 2] := rfl
  rw [hr3]
  simp only [List.map_cons, List.map_nil]
  rw [e0, e1, e2, f0, f1, f2]

/-- Witness for C3 at a concrete one-batch loader. -/
theorem eval_sample_returns_batch_means_witness :
    (eval_sample wFwd wModel 0 [wBatch]).2 = Except.ok
      ([specMeanOverBatches
          (fun b => specBatchAcc (evalSamplePred wFwd wModel 0 b) b.y b.trainMask)
          [wBatch],
        specMeanOverBatches
          (fun b => specBatchAcc (evalSamplePred wFwd wModel 0 b) b.y b.valMask)
          [wBatch],
        specMeanOverBatches
          (fun b => specBatchAcc (evalSamplePred wFwd wModel 0 b) b.y b.testMask)
          [wBatch]],
       [specMeanOverBatches (fun b => f1Macro (maskFilter b.y b.trainMask)
          (maskFilter (evalSamplePred wFwd wModel 0 b) b.trainMask)) [wBatch],
        specMeanOverBatches (fun b => f1Macro (maskFilter b.y b.valMask)
          (maskFilter (evalSamplePred wFwd wModel 0 b) b.valMask)) [wBatch],
        specMeanOverBatches (fun b => f1Macro (maskFilter b.y b.testMask)
          (maskFilter (evalSamplePred wFwd wModel 0 b) b.testMask)) [wBatch]]) := by
  exact eval_sample_returns_batch_means wFwd wModel 0 [wBatch] (by simp)
    (by decide)

theorem maskFilter_congr_on (as bs : List Nat) (mask : List Bool)
    (ha : as.length = mask.length) (hb : bs.length = mask.length)
    (h : ∀ i, i < mask.length → mask.getD i false = true →
      as.getD i 0 = bs.getD i 0) :
    maskFilter as mask = maskFilter bs mask := by
  induction mask generalizing as bs with
  | nil => rw [maskFilter_nil_right, maskFilter_nil_right]
  | cons mhead mtail ih =>
    cases as with
    | nil => simp at ha
    | cons a as' =>
      cases bs with
      | nil => simp at hb
      | cons b bs' =>
        simp only [List.length_cons] at ha hb
        have ha' : as'.length = mtail.length := by omega
        have hb' : bs'.length = mtail.length := by omega
        have htail : ∀ i, i < mtail.length → mtail.getD i false = true →
            as'.getD i 0 = bs'.getD i 0 := by
          intro i hi hm
          have := h (i + 1) (by simpa using Nat.succ_lt_succ hi) (by simpa using hm)
          simpa using this
        cases mhead with
        | false => simpa [maskFilter] using ih as' bs' ha' hb' htail
        | true =>
          have hhead : a = b := by
            have := h 0 (by simp) (by simp)
            simpa using this
          simp [maskFilter, hhead, ih as' bs' ha' hb' htail]

theorem countTrue_maskFilter_all (cs : List Bool) (mask : List Bool)
    (hc : cs.length = mask.length)
    (h : ∀ i, i < mask.length → mask.getD i false = true →
      cs.getD i false = true) :
    countTrue (maskFilter cs mask) = countTrue mask := by
  induction mask generalizing cs with
  | nil => rw [maskFilter_nil_right]
  | cons mhead mtail ih =>
    cases cs with
    | nil => simp at hc
    | cons c cs' =>
      simp only [List.length_cons] at hc
      have hc' : cs'.length = mtail.length := by omega
      have htail : ∀ i, i < mtail.length → mtail.getD i false = true →
          cs'.getD i false = true := by
        intro i hi hm
        have := h (i + 1) (by simpa using Nat.succ_lt_succ hi) (by simpa using hm)
        simpa using this
      cases mhead with
      | false =>
        show countTrue (maskFilter cs' mtail) = countTrue (false :: mtail)
        have : countTrue (false :: mtail) = countTrue mtail := by
          simp [countTrue, List.countP_cons]
        rw [this]
        exact ih cs' hc' htail
      | true =>
        have hchead : c = true := by
          have := h 0 (by simp) (by simp)
          simpa using this
        show countTrue (c :: maskFilter cs' mtail) = countTrue (true :: mtail)
        rw [hchead]
        have hl : countTrue (true :: maskFilter cs' mtail)
            = countTrue (maskFilter cs' mtail) + 1 := by
          simp [countTrue, List.countP_cons]
        have hr : countTrue (true :: mtail) = countTrue mtail + 1 := by
          simp [countTrue, List.countP_cons]
        rw [hl, hr, ih cs' hc' htail]

theorem zip_self {α : Type} (l : List α) : l.zip l = l.map (fun a => (a, a)) := by
  induction l with
  | nil => rfl
  | cons a t ih => simp [ih]

theorem sum_map_one {α : Type} (l : List α) :
    (l.map (fun _ => (1 : ℚ))).sum = l.length := by
  induction l with
  | nil => simp
  | cons a t ih =>
    simp only [List.map_cons, List.sum_cons, List.length_cons, ih]
    push_cast
    ring

theorem f1Class_self (c : Nat) (l : List Nat) (hc : c ∈ l) : f1Class c l l = 1 := by
  unfold f1Class
  rw [zip_self]
  simp only [List.countP_map]
  have htp : l.countP ((fun p : Nat × Nat => decide (p.1 = c ∧ p.2 = c)) ∘
      (fun a => (a, a))) ≠ 0 := by
    rw [← Nat.pos_iff_ne_zero]
    rw [List.countP_pos_iff]
    exact ⟨c, hc, by simp⟩
  have hfp : l.countP ((fun p : Nat × Nat => decide (¬p.1 = c ∧ p.2 = c)) ∘
      (fun a => (a, a))) = 0 := by
    rw [List.countP_eq_zero]
    intro a _
    simp
  have hfn : l.countP ((fun p : Nat × Nat => decide (p.1 = c ∧ ¬p.2 = c)) ∘
      (fun a => (a, a))) = 0 := by
    rw [List.countP_eq_zero]
    intro a _
    simp
  rw [hfp, hfn]
  set t := l.countP ((fun p : Nat × Nat => decide (p.1 = c ∧ p.2 = c)) ∘
    (fun a => (a, a))) with ht
  rw [if_neg (by omega)]
  have htq : (t : ℚ) ≠ 0 := Nat.cast_ne_zero.mpr htp
  push_cast
  rw [add_zero, add_zero]
  exact div_self (mul_ne_zero two_ne_zero htq)

theorem f1Macro_self (l : List Nat) (h : l ≠ []) : f1Macro l l = 1 := by
  unfold f1Macro
  show (List.map (fun c => f1Class c l l) (l ++ l).dedup).sum /
    ((((l ++ l).dedup).length : ℕ) : ℚ) = 1
  have hlab : ∀ c ∈ (l ++ l).dedup, f1Class c l l = 1 := by
    intro c hcd
    have hcl : c ∈ l := by
      have := List.mem_dedup.mp hcd
      rcases List.mem_append.mp this with hm | hm <;> exact hm
    exact f1Class_self c l hcl
  rw [List.map_congr_left hlab, sum_map_one]
  have hne : ((l ++ l).dedup).length ≠ 0 := by
    intro h0
    have hd := List.length_eq_zero.mp h0
    rw [List.dedup_eq_nil] at hd
    rcases List.append_eq_nil.mp hd with ⟨h1, _⟩
    exact h h1
  exact div_self (by exact_mod_cast hne)

theorem eval_full_ok {P : Type} (fwd : Fwd P) (m0 : ModelState P) (g : Graph)
    (h1 : countTrue g.trainMask ≠ 0) (h2 : countTrue g.valMask ≠ 0)
    (h3 : countTrue g.testMask ≠ 0) :
    (eval_full fwd m0 g).2 =
      Except.ok (accRowFull fwd m0 g, f1RowFull fwd m0 g) := by
  have hmk : ∀ mk ∈ g.masks, countTrue mk ≠ 0 := by
    intro mk hmk
    simp [Graph.masks] at hmk
    rcases hmk with h | h | h <;> rw [h] <;> assumption
  have hacc := accsOverMasks_ok
    (correctOf (evalFullPred fwd m0 g) g.y) g.masks hmk
  simp only [evalFullPred, predOf] at hacc
  simp [eval_full, evalFullPred, predOf, accRowFull, f1RowFull, Bind.bind,
    Except.bind, hacc]

theorem acc_f1_perfect (pred y : List Nat) (mask : List Bool)
    (hp : pred.length = y.length) (hm : mask.length = y.length)
    (hc : countTrue mask ≠ 0)
    (hpr : ∀ i, i < y.length → mask.getD i false = true →
      pred.getD i 0 = y.getD i 0) :
    ((countTrue (maskFilter (correctOf pred y) mask) : ℚ)) /
      ((countTrue mask : ℚ)) = 1
    ∧ f1Macro (maskFilter y mask) (maskFilter pred mask) = 1 := by
  constructor
  · have hclen : (correctOf pred y).length = mask.length := by
      simp only [correctOf, List.length_zipWith]
      omega
    have hall : ∀ i, i < mask.length → mask.getD i false = true →
        (correctOf pred y).getD i false = true := by
      intro i hi hmk
      have hi1 : i < pred.length := by omega
      have hi2 : i < y.length := by omega
      have hz := zipWith_getD (fun p q => decide (p = q)) pred y i false 0 0 hi1 hi2
      unfold correctOf
      rw [hz]
      simp only [decide_eq_true_eq]
      exact hpr i hi2 hmk
    rw [countTrue_maskFilter_all _ _ hclen hall]
    exact div_self (Nat.cast_ne_zero.mpr hc)
  · have hfil : maskFilter pred mask = maskFilter y mask :=
      maskFilter_congr_on pred y mask (by omega) (by omega)
        (fun i hi hmk => hpr i (by omega) hmk)
    rw [hfil]
    apply f1Macro_self
    intro hnil
    have hml := maskFilter_length y mask (by omega)
    rw [hnil] at hml
    simp at hml
    exact hc hml.symm

/-- C7: whenever `eval_full` returns and its predicted class labels equal
the ground-truth labels at every node of one of the three masks, the
accuracy returned for that mask equals 1 and the macro-F1 returned for
that mask is the perfect score 1. -/
theorem eval_full_perfect_mask {P : Type} (fwd : Fwd P) (m0 : ModelState P)
    (g : Graph) (k : Nat) (hk : k < 3)
    (h1 : countTrue g.trainMask ≠ 0) (h2 : countTrue g.valMask ≠ 0)
    (h3 : countTrue g.testMask ≠ 0)
    (hyl : (evalFullPred fwd m0 g).length = g.y.length)
    (hml : (g.masks.getD k []).length = g.y.length)
    (hpred : ∀ i, i < g.y.length → (g.masks.getD k []).getD i false = true →
      (evalFullPred fwd m0 g).getD i 0 = g.y.getD i 0) :
    (eval_full fwd m0 g).2 =
      Except.ok (accRowFull fwd m0 g, f1RowFull fwd m0 g)
    ∧ (accRowFull fwd m0 g).getD k 0 = 1
    ∧ (f1RowFull fwd m0 g).getD k 0 = 1 := by
  refine ⟨eval_full_ok fwd m0 g h1 h2 h3, ?_, ?_⟩ <;>
    interval_cases k
  · exact (acc_f1_perfect _ _ _ hyl hml h1 hpred).1
  · exact (acc_f1_perfect _ _ _ hyl hml h2 hpred).1
  · exact (acc_f1_perfect _ _ _ hyl hml h3 hpred).1
  · exact (acc_f1_perfect _ _ _ hyl hml h1 hpred).2
  · exact (acc_f1_perfect _ _ _ hyl hml h2 hpred).2
  · exact (acc_f1_perfect _ _ _ hyl hml h3 hpred).2

/-- Witness for C7 at a concrete two-node graph with perfect predictions
on the train mask. -/
theorem eval_full_perfect_mask_witness :
    (eval_full wFwd wModel wGraph).2 =
      Except.ok (accRowFull wFwd wModel wGraph, f1RowFull wFwd wModel wGraph)
    ∧ (accRowFull wFwd wModel wGraph).getD 0 0 = 1
    ∧ (f1RowFull wFwd wModel wGraph).getD 0 0 = 1 := by
  exact eval_full_perfect_mask wFwd wModel wGraph 0 (by decide) (by decide)
    (by decide) (by decide) (by decide) (by decide) (by decide)

end GNN















